import Mathlib

/-!
Verification development for the apex-sentinel scoring-to-ledger pipeline.

The development shallowly embeds the Python sources:
  src/security_ledger.py   (hash-chained append-only ledger)
  src/verify_integrity.py  (forensic integrity scan)
  src/main.py              (window construction and channel ranking)
  src/anomaly_analysis.py  (dynamic interpretation of top features)

The cryptographic hash (hashlib.sha256 hexdigest) is modelled as an
arbitrary function H from strings to strings; theorems that need
distinctness of digests assume H is injective, which idealises
collision resistance.  Floating point error values are modelled by
their JSON text rendering where they are only serialized, and by an
arbitrary linearly ordered type where they are only compared.
-/

namespace ApexSentinel

/-! ## Canonical JSON serialization: json.dumps with sort keys

json.dumps(obj, sort_keys=True) with default separators renders a dict
as key-value pairs sorted by key, separated by a comma and a space,
with a colon and a space between key and value.  The payload dicts of
security_ledger.py and verify_integrity.py have fixed key sets, so the
sorted key order is written out literally below.  String values in the
repository (ISO timestamps, channel names, classifications) contain no
control characters, so escaping only backslash and double quote is
exact on this domain. -/

def jsonEscapeChar (c : Char) : String :=
  if c = '\\' then "\\\\" else if c = '"' then "\\\"" else String.singleton c

def jsonEscape (s : String) : String :=
  String.join (s.data.map jsonEscapeChar)

/-- JSON rendering of a Python string value. -/
def jstr (s : String) : String := "\"" ++ jsonEscape s ++ "\""

/-- JSON rendering of a Python value that is either None or a string;
dict.get returns None for a missing key, which json.dumps renders as null. -/
def jnullable : Option String → String
  | none => "null"
  | some s => jstr s

/-- JSON rendering of the top_features list: a list of (channel name,
numeric error) pairs.  The numeric error is carried as its JSON text. -/
def jfeatures (tf : List (String × String)) : String :=
  "[" ++ String.intercalate ", " (tf.map (fun p => "[" ++ jstr p.1 ++ ", " ++ p.2 ++ "]")) ++ "]"

/-! ## Ledger data model (security_ledger.py) -/

/-- The fields of the event_report dict that security_ledger.py and
verify_integrity.py actually read: event_report.get("classification"),
entry["data"].get("severity"), entry["data"].get("top_features").
The real dict carries further keys (end_index, raw_snapshot, ...) that
neither hashing nor verification reads. -/
structure EventReport where
  classification : Option String
  severity : Option String
  top_features : List (String × String)
deriving DecidableEq

/-- One persisted ledger entry, as written by log_to_ledger. -/
structure LedgerEntry where
  id : String
  timestamp : String
  metadata : List (String × String)
  previous_hash : String
  integrity_hash : String
  data : EventReport
deriving DecidableEq

/-- The fixed all-zero genesis sentinel (64 characters). -/
def genesisHash : String :=
  "0000000000000000000000000000000000000000000000000000000000000000"

/-- The persisted ledger store as the code can observe it: the file is
absent, or present but failing json.load, or parses to an entry list. -/
inductive Store
  | absent
  | corrupt
  | ok (entries : List LedgerEntry)

/-- security_ledger.get_previous_hash: genesis when the file is absent,
genesis when json.load raises (the bare except), the integrity_hash of
data[-1] when the parsed list is nonempty, genesis when it is empty. -/
def get_previous_hash : Store → String
  | .absent => genesisHash
  | .corrupt => genesisHash
  | .ok es =>
    match es.getLast? with
    | some e => e.integrity_hash
    | none => genesisHash

/-- The entry list that the save step of log_to_ledger starts from:
it re-reads the file, and the bare except (except: pass) leaves
ledger_data = [] when the file is absent or fails to parse. -/
def readForSave : Store → List LedgerEntry
  | .absent => []
  | .corrupt => []
  | .ok es => es

/-- security_ledger.generate_chained_hash: the hash of the canonical
dump of the event data concatenated with the previous hash.  The dict
argument of the Python function enters here through its sorted-key
dump, already rendered to a string. -/
def generate_chained_hash (H : String → String) (eventDump previous_hash : String) : String :=
  H (eventDump ++ previous_hash)

/-- The sorted-key dump of the verification_payload dict built by
log_to_ledger: keys timestamp, top_features, type (in sorted order),
where type holds event_report.get("classification").  Severity is not
part of this dict. -/
def dumpAppendPayload (timestamp : String) (classification : Option String)
    (tf : List (String × String)) : String :=
  "\x7b\"timestamp\": " ++ jstr timestamp ++
  ", \"top_features\": " ++ jfeatures tf ++
  ", \"type\": " ++ jnullable classification ++ "\x7d"

/-- security_ledger.log_to_ledger restricted to its ledger effect (the
PDF evidence rendering is out of scope).  Inputs utcTimestamp and
dateStr model the two clock reads (datetime.utcnow isoformat plus Z,
and the local date used in the event id).  Returns the new entry and
the entry list written back to the store. -/
def log_to_ledger (H : String → String) (store : Store) (event_report : EventReport)
    (utcTimestamp dateStr : String) (metadata : List (String × String)) :
    LedgerEntry × List LedgerEntry :=
  let previous_hash := get_previous_hash store
  let dumped := dumpAppendPayload utcTimestamp event_report.classification event_report.top_features
  let integrity_hash := generate_chained_hash H dumped previous_hash
  let event_id := "EVT-" ++ dateStr ++ "-" ++ (integrity_hash.take 6).toUpper
  let entry : LedgerEntry :=
    { id := event_id
      timestamp := utcTimestamp
      metadata := metadata
      previous_hash := previous_hash
      integrity_hash := integrity_hash
      data := event_report }
  (entry, readForSave store ++ [entry])

/-! ## Integrity verification (verify_integrity.py) -/

/-- The sorted-key dump of the verification_data dict built by
verify_ledger: keys classification, severity, timestamp, top_features
(in sorted order).  Note the key set differs from the dict hashed by
log_to_ledger: severity is present here, and the classification is
keyed classification rather than type. -/
def dumpVerifyPayload (e : LedgerEntry) : String :=
  "\x7b\"classification\": " ++ jnullable e.data.classification ++
  ", \"severity\": " ++ jnullable e.data.severity ++
  ", \"timestamp\": " ++ jstr e.timestamp ++
  ", \"top_features\": " ++ jfeatures e.data.top_features ++ "\x7d"

/-- Outcome of the forensic scan over a parsed entry list.
brokenLink i models the branch taken when entry i fails the
previous_hash comparison: the code prints Broken Link and then the
detail f-string raises TypeError, because previous_hash[.16] indexes
the string with the float literal .16 (a slip for the slice [:16]
used two lines below), so the scan aborts there with a traceback and
the final verdict line is never reached.
tampering i models the branch where the recomputed hash of entry i
differs from its stored integrity_hash; the scan breaks and prints the
compromised verdict.  clean models the loop ending with is_clean still
true. -/
inductive VerifyResult
  | clean
  | brokenLink (i : Nat)
  | tampering (i : Nat)
deriving DecidableEq

/-- The scan loop of verify_integrity.verify_ledger: walk the entries
carrying the running hash, check the link first, then recompute the
chained hash from the verification_data dump and the running hash. -/
def verifyFrom (H : String → String) (running : String) (i : Nat) :
    List LedgerEntry → VerifyResult
  | [] => .clean
  | e :: rest =>
    if e.previous_hash ≠ running then .brokenLink i
    else if generate_chained_hash H (dumpVerifyPayload e) running ≠ e.integrity_hash then
      .tampering i
    else verifyFrom H e.integrity_hash (i + 1) rest

/-- verify_integrity.verify_ledger on a parsed entry list: the running
hash starts at the genesis sentinel and the first entry has index 0. -/
def verify_ledger (H : String → String) (entries : List LedgerEntry) : VerifyResult :=
  verifyFrom H genesisHash 0 entries

/-! ## Chain linkage predicate -/

/-- The entry list is correctly linked when read with prev as the hash
carried in from before the list: each previous_hash field equals the
hash carried from the prior step. -/
def chainFrom (prev : String) : List LedgerEntry → Prop
  | [] => True
  | e :: rest => e.previous_hash = prev ∧ chainFrom e.integrity_hash rest

/-- A whole ledger is correctly linked starting at the genesis sentinel. -/
def chainOk (es : List LedgerEntry) : Prop := chainFrom genesisHash es

/-- The hash a further entry appended after es must link to, when es
itself links in from prev. -/
def lastHashFrom (prev : String) : List LedgerEntry → String
  | [] => prev
  | e :: rest => lastHashFrom e.integrity_hash rest

/-! ## Window construction (main.py predict_anomaly)

main.py slices the scaled telemetry into sliding sequences:
sequences = [scaled[i : i + TIMESTEPS] for i in range(len - TIMESTEPS + 1)]
and computes sequence_end_indices = [i + TIMESTEPS - 1 for i in range(...)],
after rejecting inputs shorter than TIMESTEPS frames.  Frames are kept
abstract: the slicing never inspects them. -/

def TIMESTEPS : Nat := 10

/-- The sliding windows over a frame list, stride 1. -/
def makeSequences {F : Type} (frames : List F) : List (List F) :=
  (List.range (frames.length - TIMESTEPS + 1)).map (fun i => (frames.drop i).take TIMESTEPS)

/-- The end index of each window in the source sequence. -/
def sequence_end_indices (n : Nat) : List Nat :=
  (List.range (n - TIMESTEPS + 1)).map (fun i => i + TIMESTEPS - 1)

/-- The window-construction stage of main.predict_anomaly: the guard
len(input_df) < TIMESTEPS returns the not-enough-data error dict, the
guard sequences.size == 0 returns the no-sequences error dict, and
otherwise the windows are produced.  The error dict is modelled by the
error string it carries. -/
def predict_anomaly_windows {F : Type} (frames : List F) : Except String (List (List F)) :=
  if frames.length < TIMESTEPS then
    .error "Not enough data provided. Need at least 10 timesteps."
  else
    let seqs := makeSequences frames
    if seqs.length = 0 then .error "Could not create any sequences from the provided data."
    else .ok seqs

/-! ## Channel ranking (main.py predict_anomaly)

main.py ranks channels with
sorted(feature_error_map.items(), key=lambda kv: kv[1], reverse=True)[:3].
Python dicts iterate in insertion order and Python sorted is stable
with reverse=True reversing the comparison, not the output, so equal
error values keep the insertion (column) order.  The error values are
floats compared only by order, modelled by any linearly ordered type.
A stable descending sort is embedded as insertion into a sorted
accumulator, each element placed after every element with an error at
least as large. -/

def insertByErrorDesc {α : Type} [LinearOrder α] (x : String × α) :
    List (String × α) → List (String × α)
  | [] => [x]
  | y :: ys => if x.2 ≤ y.2 then y :: insertByErrorDesc x ys else x :: y :: ys

/-- Stable sort of the items of feature_error_map by error, descending. -/
def sortByErrorDesc {α : Type} [LinearOrder α] (m : List (String × α)) : List (String × α) :=
  m.foldl (fun acc x => insertByErrorDesc x acc) []

/-- top_3_features of main.predict_anomaly: the first 3 items of the
stably sorted channel list. -/
def topFeatures {α : Type} [LinearOrder α] (m : List (String × α)) : List (String × α) :=
  (sortByErrorDesc m).take 3

/-- Strict lexicographic order on character lists, by code point. -/
def charListLexLt : List Char → List Char → Bool
  | [], [] => false
  | [], _ :: _ => true
  | _ :: _, [] => false
  | a :: as, b :: bs => if a < b then true else if b < a then false else charListLexLt as bs

/-- Strict lexical order on channel names, over their characters. -/
def lexNameLt (a b : String) : Bool := charListLexLt a.data b.data

/-- Modelled from the spec (for refinement comparison only, following
the words of spec section 4.2): channels sorted by error descending
with ties broken by channel name in lexical order.  An element is
placed after every element with a strictly larger error, and after an
equal-error element exactly when that element has the lexically
smaller name. -/
def specInsertRanked {α : Type} [LinearOrder α] (x : String × α) :
    List (String × α) → List (String × α)
  | [] => [x]
  | y :: ys =>
    if x.2 < y.2 ∨ (x.2 = y.2 ∧ lexNameLt y.1 x.1 = true) then y :: specInsertRanked x ys
    else x :: y :: ys

/-- Modelled from the spec: the full lexical-tie-break ranking. -/
def specRankChannels {α : Type} [LinearOrder α] (m : List (String × α)) : List (String × α) :=
  m.foldl (fun acc x => specInsertRanked x acc) []

/-- Modelled from the spec: top-K (K = 3) channels of the
lexical-tie-break ranking. -/
def specTopChannels {α : Type} [LinearOrder α] (m : List (String × α)) : List (String × α) :=
  (specRankChannels m).take 3

/-! ## Event classifier

The spec (section 4.3) describes an EventClassifier mapping the ranked
top channels and the raw snapshot to an event type and a severity.  No
function in src/ computes such a pair; only consumers of its fields
appear there (security_ledger.py reads classification from the event
report and verify_integrity.py reads classification and severity), so
the classifier is modelled from the spec below. -/

inductive EventType
  | sensorDropout
  | driverLockUp
  | tractionLoss
  | drsActuationFault
  | anomalousBehavior
deriving DecidableEq

inductive EventSeverity
  | critical
  | physicalEvent
  | warning
  | unclassified
deriving DecidableEq

/-- One telemetry frame of raw physical values, fixed channel set. -/
structure RawSnapshot where
  Speed : ℚ
  RPM : ℚ
  Throttle : ℚ
  Brake : ℚ
  nGear : ℚ
  DRS : ℚ
deriving DecidableEq

/-- Modelled from the spec: the EventClassifier of spec section 4.3 is
absent from src/.  The five rules are evaluated in strict priority
order, first match wins:
1. Speed above 100 and (RPM zero, or Throttle among the top channels
   with Throttle zero) gives SensorDropout at severity Critical.
2. Brake and Speed both among the top channel names with Brake above
   the hard-braking threshold 50 gives DriverLockUp at PhysicalEvent.
3. RPM and Throttle both among the top channel names gives
   TractionLoss at PhysicalEvent.
4. DRS among the top channel names gives DrsActuationFault at Warning.
5. Otherwise AnomalousBehavior at Unclassified.
Membership is channel-name equality, independent of error magnitude. -/
def classify_event {α : Type} (top_channels : List (String × α)) (snap : RawSnapshot) :
    EventType × EventSeverity :=
  let names := top_channels.map Prod.fst
  if snap.Speed > 100 ∧ (snap.RPM = 0 ∨ ("Throttle" ∈ names ∧ snap.Throttle = 0)) then
    (.sensorDropout, .critical)
  else if "Brake" ∈ names ∧ "Speed" ∈ names ∧ snap.Brake > 50 then
    (.driverLockUp, .physicalEvent)
  else if "RPM" ∈ names ∧ "Throttle" ∈ names then
    (.tractionLoss, .physicalEvent)
  else if "DRS" ∈ names then
    (.drsActuationFault, .warning)
  else
    (.anomalousBehavior, .unclassified)

/-! ## Dynamic interpretation (anomaly_analysis.py) -/

def msgRpmThrottle : String :=
  "High error in both **RPM and Throttle** often points to a power unit issue, an unexpected gear shift, or a loss of traction where engine speed is inconsistent with throttle input."

def msgRpm : String :=
  "A significant deviation in **RPM** could suggest an engine irregularity, a missed gear shift, or hitting the rev limiter unexpectedly."

def msgThrottle : String :=
  "An anomaly in **Throttle** might indicate erratic driver input or a problem with the throttle application sensor."

def msgBrakeSpeed : String :=
  "When **Brake and Speed** are flagged together, it could signal a wheel lock-up under braking, a spin, or a driver action that deviates heavily from normal braking zones."

def msgBrake : String :=
  "Unusual **Brake** data can indicate braking at an unexpected point on the track, a sensor glitch (flickering on/off), or a sign of brake-related issues like fading."

def msgDrs : String :=
  "A **DRS** anomaly is significant as it suggests the drag reduction system was activated or deactivated outside of a normal zone, potentially indicating a malfunction or a strategic error."

/-- The general fallback summary built from the name of the first
(highest-error) feature, top_features[0][0]. -/
def fallbackText (topFeatureName : String) : String :=
  "The primary deviation was in **" ++ topFeatureName ++
  "**. This indicates that its behavior was the most uncharacteristic aspect of this event, warranting a closer look at its data trace."

def interpretationIntro : String := "\n- **Interpretation**: "

def recommendationText : String :=
  "\n\n> **Recommendation**: Always review the raw telemetry graphs around this time step to correlate these findings with specific on-track events or potential system malfunctions."

/-- The message for the empty top_features list. -/
def noFeatureDataText : String :=
  "Could not determine a specific interpretation without feature data."

/-- anomaly_analysis.get_dynamic_interpretation.  The error values are
never inspected, only the feature names (the set comprehension models
as membership in the name list) and the first feature name, so the
error type stays abstract.  The elif chains of the source become
nested conditionals and the list of collected interpretations is
joined with single spaces. -/
def get_dynamic_interpretation {α : Type} (top_features : List (String × α)) : String :=
  match top_features with
  | [] => noFeatureDataText
  | (firstName, _) :: _ =>
    let names := top_features.map Prod.fst
    let powertrain : List String :=
      if "RPM" ∈ names ∧ "Throttle" ∈ names then [msgRpmThrottle]
      else if "RPM" ∈ names then [msgRpm]
      else if "Throttle" ∈ names then [msgThrottle]
      else []
    let braking : List String :=
      if "Brake" ∈ names ∧ "Speed" ∈ names then [msgBrakeSpeed]
      else if "Brake" ∈ names then [msgBrake]
      else []
    let drs : List String := if "DRS" ∈ names then [msgDrs] else []
    let interpretations := powertrain ++ braking ++ drs
    let interpretations :=
      if interpretations = [] then [fallbackText firstName] else interpretations
    interpretationIntro ++ String.intercalate " " interpretations ++ recommendationText

/-! ## Sample data for concrete evaluations -/

def sampleReport : EventReport :=
  { classification := some "TractionLoss"
    severity := some "PhysicalEvent"
    top_features := [("RPM", "0.5"), ("Throttle", "0.25")] }

def sampleReportTwo : EventReport :=
  { classification := some "DriverLockUp"
    severity := some "PhysicalEvent"
    top_features := [("Brake", "0.7"), ("Speed", "0.4")] }

def sampleTs : String := "2024-03-02T14:00:00Z"

def sampleTsTwo : String := "2024-03-02T14:05:00Z"

def sampleDate : String := "20240302"

/-- A 64-character value distinct from the genesis sentinel, used as a
damaged previous_hash. -/
def onesHash : String :=
  "1111111111111111111111111111111111111111111111111111111111111111"

/-- The entry produced by the first append against an absent store. -/
def firstEntry (H : String → String) : LedgerEntry :=
  (log_to_ledger H Store.absent sampleReport sampleTs sampleDate []).1

/-- The entry produced by a second append on top of the first. -/
def secondEntry (H : String → String) : LedgerEntry :=
  (log_to_ledger H (Store.ok [firstEntry H]) sampleReportTwo sampleTsTwo sampleDate []).1

/-- The store contents after two appends starting from an absent store. -/
def appendedTwice (H : String → String) : List LedgerEntry :=
  (log_to_ledger H (Store.ok [firstEntry H]) sampleReportTwo sampleTsTwo sampleDate []).2

/-- The two-entry ledger with one payload byte of the second entry
changed: its stored classification string is replaced. -/
def tamperedChain (H : String → String) : List LedgerEntry :=
  [firstEntry H,
   { secondEntry H with data := { (secondEntry H).data with classification := some "Xampered" } }]

/-- The two-entry ledger with the previous_hash of the second entry
overwritten. -/
def linkAlteredChain (H : String → String) : List LedgerEntry :=
  [firstEntry H, { secondEntry H with previous_hash := onesHash }]

/-- A stored entry whose previous_hash is not the genesis sentinel. -/
def badLinkEntry : LedgerEntry :=
  { id := "EVT-20240302-AAAAAA"
    timestamp := sampleTs
    metadata := []
    previous_hash := onesHash
    integrity_hash := genesisHash
    data := sampleReport }

/-- The channel error map used against the tie-break claim: Speed and
Brake share the largest error, the remaining channels share a smaller
one.  Insertion order is the column order of the input schema. -/
def sampleErrMap : List (String × ℤ) :=
  [("Speed", 1), ("RPM", 0), ("Throttle", 0), ("Brake", 1), ("nGear", 0), ("DRS", 0)]

/-! # Theorems -/

set_option maxRecDepth 40000

/-- The verify-time dump of an entry reads only its timestamp and its
data fields. -/
lemma dumpVerifyPayload_mk (i ts : String) (md : List (String × String)) (ph ih : String)
    (d : EventReport) :
    dumpVerifyPayload
      { id := i
        timestamp := ts
        metadata := md
        previous_hash := ph
        integrity_hash := ih
        data := d } =
    "\x7b\"classification\": " ++ jnullable d.classification ++
    ", \"severity\": " ++ jnullable d.severity ++
    ", \"timestamp\": " ++ jstr ts ++
    ", \"top_features\": " ++ jfeatures d.top_features ++ "\x7d" := rfl

/-- The scan stops with brokenLink at an entry whose previous_hash
differs from the running hash. -/
lemma verifyFrom_cons_broken (H : String → String) (running : String) (i : Nat)
    (e : LedgerEntry) (rest : List LedgerEntry) (hlink : e.previous_hash ≠ running) :
    verifyFrom H running i (e :: rest) = .brokenLink i := by
  unfold verifyFrom
  rw [if_pos hlink]

/-- The scan stops with tampering at a correctly linked entry whose
recomputed hash differs from its stored integrity_hash. -/
lemma verifyFrom_cons_tamper (H : String → String) (running : String) (i : Nat)
    (e : LedgerEntry) (rest : List LedgerEntry)
    (hlink : e.previous_hash = running)
    (htamp : generate_chained_hash H (dumpVerifyPayload e) running ≠ e.integrity_hash) :
    verifyFrom H running i (e :: rest) = .tampering i := by
  unfold verifyFrom
  rw [if_neg (by simp [hlink]), if_pos htamp]

/-- The first appended entry, written out field by field. -/
lemma firstEntry_eq (H : String → String) :
    firstEntry H =
    { id := "EVT-" ++ sampleDate ++ "-" ++
        ((H (dumpAppendPayload sampleTs sampleReport.classification sampleReport.top_features ++
          genesisHash)).take 6).toUpper
      timestamp := sampleTs
      metadata := []
      previous_hash := genesisHash
      integrity_hash :=
        H (dumpAppendPayload sampleTs sampleReport.classification sampleReport.top_features ++
          genesisHash)
      data := sampleReport } := rfl

/-- Any scan of a ledger starting with the honestly appended first
sample entry stops immediately with tampering at index 0: the string
hashed at append time (keys timestamp, top_features, type) differs
from the string hashed at verify time (keys classification, severity,
timestamp, top_features), so for an injective hash the digests differ. -/
lemma verifyFrom_firstEntry (H : String → String) (hinj : Function.Injective H)
    (rest : List LedgerEntry) :
    verifyFrom H genesisHash 0 (firstEntry H :: rest) = .tampering 0 := by
  rw [firstEntry_eq]
  apply verifyFrom_cons_tamper
  · rfl
  · intro hEq
    rw [generate_chained_hash, dumpVerifyPayload_mk] at hEq
    exact absurd (hinj hEq) (by decide)

/-- C1: the claimed round-trip law fails on the code.  log_to_ledger
hashes the dict with keys timestamp, top_features, type while
verify_ledger recomputes over keys classification, severity,
timestamp, top_features, so appending one entry to an empty ledger and
then running the integrity verifier reports tampering at the first
entry rather than Clean, for every injective hash function. -/
theorem c1_roundtrip_bug (H : String → String) (hinj : Function.Injective H) :
    verify_ledger H (log_to_ledger H Store.absent sampleReport sampleTs sampleDate []).2 =
      VerifyResult.tampering 0 ∧
    VerifyResult.tampering 0 ≠ VerifyResult.clean := by
  constructor
  · have hlist :
        (log_to_ledger H Store.absent sampleReport sampleTs sampleDate []).2 = [firstEntry H] :=
      rfl
    rw [verify_ledger, hlist]
    exact verifyFrom_firstEntry H hinj []
  · decide

/-- C1 witness: the bug evaluated at the identity hash function. -/
theorem c1_roundtrip_bug_witness :
    verify_ledger id (log_to_ledger id Store.absent sampleReport sampleTs sampleDate []).2 =
      VerifyResult.tampering 0 ∧
    VerifyResult.tampering 0 ≠ VerifyResult.clean :=
  c1_roundtrip_bug id Function.injective_id

/-- C2 counterexample: append against a corrupt store does not fail
and does write: it writes a fresh single-entry chain whose entry links
to the genesis sentinel. -/
theorem c2_corrupt_append_counterexample :
    (log_to_ledger id Store.corrupt sampleReport sampleTs sampleDate []).2 =
      [(log_to_ledger id Store.corrupt sampleReport sampleTs sampleDate []).1] ∧
    (log_to_ledger id Store.corrupt sampleReport sampleTs sampleDate []).1.previous_hash =
      genesisHash :=
  ⟨rfl, rfl⟩

/-- C2 amended: when the persisted store exists but fails to parse,
append behaves exactly as on an empty store: the bare except handlers
make the corrupt contents read as empty, the new entry links to the
genesis sentinel, and the store is overwritten with a fresh one-entry
chain.  No corruption error exists in the code. -/
theorem c2_corrupt_append_silent_restart (H : String → String) (r : EventReport)
    (ts d : String) (md : List (String × String)) :
    log_to_ledger H Store.corrupt r ts d md = log_to_ledger H (Store.ok []) r ts d md ∧
    (log_to_ledger H Store.corrupt r ts d md).1.previous_hash = genesisHash ∧
    (log_to_ledger H Store.corrupt r ts d md).2 =
      [(log_to_ledger H Store.corrupt r ts d md).1] :=
  ⟨rfl, rfl, rfl⟩

/-- C4: the broken-link branch.  At the first entry whose
previous_hash differs from the running hash the scan stops without
looking at any later entry, but the code aborts there with a TypeError
from the float index previous_hash[.16] instead of finishing the
report and printing the compromised verdict (the brokenLink
constructor models exactly that aborting branch); the empty ledger
verifies clean. -/
theorem c4_broken_link_crash :
    ∀ (H : String → String) (rest : List LedgerEntry),
      verify_ledger H (badLinkEntry :: rest) = VerifyResult.brokenLink 0 ∧
      verify_ledger H [] = VerifyResult.clean := by
  intro H rest
  constructor
  · exact verifyFrom_cons_broken H genesisHash 0 badLinkEntry rest (by decide)
  · rfl

/-- C5: tamper evidence is not complete on the code.  In a two-entry
ledger produced by append with the second entry payload mutated, the
verifier reports tampering at index 0, not at the mutated entry index
1, because even the unmutated first entry fails the recomputation
(append and verify hash different key sets); likewise overwriting the
previous_hash of entry 2 still yields tampering at index 0 rather than
a broken-link report at index 1. -/
theorem c5_mutation_bug (H : String → String) (hinj : Function.Injective H) :
    verify_ledger H (tamperedChain H) = VerifyResult.tampering 0 ∧
    verify_ledger H (linkAlteredChain H) = VerifyResult.tampering 0 ∧
    VerifyResult.tampering 0 ≠ VerifyResult.tampering 1 ∧
    VerifyResult.tampering 0 ≠ VerifyResult.brokenLink 1 := by
  refine ⟨?_, ?_, by decide, by decide⟩
  · exact verifyFrom_firstEntry H hinj _
  · exact verifyFrom_firstEntry H hinj _

/-- C5 witness: the divergence evaluated at the identity hash function. -/
theorem c5_mutation_bug_witness :
    verify_ledger id (tamperedChain id) = VerifyResult.tampering 0 ∧
    verify_ledger id (linkAlteredChain id) = VerifyResult.tampering 0 ∧
    VerifyResult.tampering 0 ≠ VerifyResult.tampering 1 ∧
    VerifyResult.tampering 0 ≠ VerifyResult.brokenLink 1 :=
  c5_mutation_bug id Function.injective_id

/-- Appending one entry on the right extends a correctly linked chain
exactly when the new entry links to the hash the chain ends on. -/
lemma chainFrom_concat (e : LedgerEntry) :
    ∀ (es : List LedgerEntry) (prev : String),
      chainFrom prev (es ++ [e]) ↔ chainFrom prev es ∧ e.previous_hash = lastHashFrom prev es := by
  intro es
  induction es with
  | nil => intro prev; simp [chainFrom, lastHashFrom]
  | cons y ys ih =>
    intro prev
    rw [show chainFrom prev ((y :: ys) ++ [e]) =
        (y.previous_hash = prev ∧ chainFrom y.integrity_hash (ys ++ [e])) from rfl]
    rw [show chainFrom prev (y :: ys) =
        (y.previous_hash = prev ∧ chainFrom y.integrity_hash ys) from rfl]
    rw [show lastHashFrom prev (y :: ys) = lastHashFrom y.integrity_hash ys from rfl]
    rw [ih]
    tauto

/-- A chain ending on an appended entry ends on the hash of that entry. -/
lemma lastHashFrom_concat (e : LedgerEntry) :
    ∀ (es : List LedgerEntry) (prev : String),
      lastHashFrom prev (es ++ [e]) = e.integrity_hash := by
  intro es
  induction es with
  | nil => intro prev; rfl
  | cons y ys ih => intro prev; exact ih y.integrity_hash

/-- get_previous_hash reads the hash the effective stored chain ends on. -/
lemma get_previous_hash_eq (store : Store) :
    get_previous_hash store = lastHashFrom genesisHash (readForSave store) := by
  cases store with
  | absent => rfl
  | corrupt => rfl
  | ok es =>
    induction es using List.reverseRecOn with
    | nil => rfl
    | append_singleton ys y _ =>
      simp only [get_previous_hash, readForSave]
      rw [List.getLast?_concat, lastHashFrom_concat]

/-- C6: chain linkage is preserved by every successful append.  The
new store is the old effective entry list plus the new entry, the new
entry links to the hash returned by get_previous_hash (the
integrity_hash of the last present entry), an empty effective store
makes the first entry link to the genesis sentinel, the extended chain
stays correctly linked, and the genesis sentinel is the 64-character
all-zero string. -/
theorem c6_chain_linkage (H : String → String) (store : Store) (r : EventReport)
    (ts d : String) (md : List (String × String)) (h : chainOk (readForSave store)) :
    (log_to_ledger H store r ts d md).2 =
      readForSave store ++ [(log_to_ledger H store r ts d md).1] ∧
    (log_to_ledger H store r ts d md).1.previous_hash = get_previous_hash store ∧
    (readForSave store = [] →
      (log_to_ledger H store r ts d md).1.previous_hash = genesisHash) ∧
    chainOk (log_to_ledger H store r ts d md).2 ∧
    genesisHash.length = 64 ∧ (∀ c ∈ genesisHash.data, c = '0') := by
  refine ⟨rfl, rfl, ?_, ?_, by decide, by decide⟩
  · intro he
    rw [show (log_to_ledger H store r ts d md).1.previous_hash = get_previous_hash store
        from rfl]
    rw [get_previous_hash_eq, he]
    rfl
  · rw [show (log_to_ledger H store r ts d md).2 =
        readForSave store ++ [(log_to_ledger H store r ts d md).1] from rfl]
    rw [chainOk, chainFrom_concat]
    refine ⟨h, ?_⟩
    rw [show (log_to_ledger H store r ts d md).1.previous_hash = get_previous_hash store
        from rfl]
    exact get_previous_hash_eq store

/-- C6 witness: the invariant applied to the first append against an
absent store. -/
theorem c6_chain_linkage_witness :
    chainOk (readForSave Store.absent) ∧
    ((log_to_ledger id Store.absent sampleReport sampleTs sampleDate []).2 =
      readForSave Store.absent ++
        [(log_to_ledger id Store.absent sampleReport sampleTs sampleDate []).1] ∧
    (log_to_ledger id Store.absent sampleReport sampleTs sampleDate []).1.previous_hash =
      get_previous_hash Store.absent ∧
    (readForSave Store.absent = [] →
      (log_to_ledger id Store.absent sampleReport sampleTs sampleDate []).1.previous_hash =
        genesisHash) ∧
    chainOk (log_to_ledger id Store.absent sampleReport sampleTs sampleDate []).2 ∧
    genesisHash.length = 64 ∧ (∀ c ∈ genesisHash.data, c = '0')) :=
  ⟨trivial, c6_chain_linkage id Store.absent sampleReport sampleTs sampleDate [] trivial⟩

/-- C7: for N frames with N at least TIMESTEPS, the sliding-window
construction yields exactly N - TIMESTEPS + 1 windows, every window
has exactly TIMESTEPS frames, the i-th end index is i + TIMESTEPS - 1,
the end indices are strictly increasing, and the i-th end index is the
position of the last frame of the i-th window in the source list. -/
theorem c7_window_construction {F : Type} (frames : List F)
    (h : TIMESTEPS ≤ frames.length) :
    (makeSequences frames).length = frames.length - TIMESTEPS + 1 ∧
    (∀ w ∈ makeSequences frames, w.length = TIMESTEPS) ∧
    (∀ i, i < frames.length - TIMESTEPS + 1 →
      (sequence_end_indices frames.length)[i]? = some (i + TIMESTEPS - 1)) ∧
    (∀ i w, (makeSequences frames)[i]? = some w →
      w.getLast? = frames[i + TIMESTEPS - 1]?) ∧
    List.Pairwise (fun a b => a < b) (sequence_end_indices frames.length) := by
  refine ⟨?_, ?_, ?_, ?_, ?_⟩
  · simp [makeSequences]
  · intro w hw
    rw [makeSequences] at hw
    obtain ⟨i, hi, rfl⟩ := List.mem_map.mp hw
    rw [List.mem_range] at hi
    rw [List.length_take, List.length_drop]
    rw [TIMESTEPS] at h hi ⊢
    omega
  · intro i hi
    rw [sequence_end_indices, List.getElem?_map, List.getElem?_range hi]
    rfl
  · intro i w hw
    have hi : i < frames.length - TIMESTEPS + 1 := by
      rcases lt_or_ge i (makeSequences frames).length with hlt | hge
      · simp only [makeSequences, List.length_map, List.length_range] at hlt
        exact hlt
      · rw [List.getElem?_eq_none hge] at hw; cases hw
    have hw2 : w = (frames.drop i).take TIMESTEPS := by
      rw [makeSequences, List.getElem?_map, List.getElem?_range hi] at hw
      simpa using hw.symm
    subst hw2
    have hlen : ((frames.drop i).take TIMESTEPS).length = TIMESTEPS := by
      rw [List.length_take, List.length_drop]
      rw [TIMESTEPS] at h hi ⊢
      omega
    rw [List.getLast?_eq_getElem?, hlen]
    rw [List.getElem?_take_of_lt (by rw [TIMESTEPS]; omega)]
    rw [List.getElem?_drop]
    congr 1
  · rw [sequence_end_indices, List.pairwise_map]
    exact (List.pairwise_lt_range _).imp (by intro a b hab; rw [TIMESTEPS]; omega)

/-- C7 witness: the construction applied to twelve frames. -/
theorem c7_window_construction_witness :
    TIMESTEPS ≤ (List.range 12).length ∧
    ((makeSequences (List.range 12)).length = (List.range 12).length - TIMESTEPS + 1 ∧
    (∀ w ∈ makeSequences (List.range 12), w.length = TIMESTEPS) ∧
    (∀ i, i < (List.range 12).length - TIMESTEPS + 1 →
      (sequence_end_indices (List.range 12).length)[i]? = some (i + TIMESTEPS - 1)) ∧
    (∀ i w, (makeSequences (List.range 12))[i]? = some w →
      w.getLast? = (List.range 12)[i + TIMESTEPS - 1]?) ∧
    List.Pairwise (fun a b => a < b) (sequence_end_indices (List.range 12).length)) :=
  ⟨by decide, c7_window_construction (List.range 12) (by decide)⟩

/-- C8: the window stage fails with the not-enough-data error exactly
when fewer than TIMESTEPS frames are supplied, and with exactly
TIMESTEPS frames it succeeds with exactly one window, the whole input. -/
theorem c8_insufficient_data {F : Type} (frames : List F) :
    (predict_anomaly_windows frames =
        Except.error "Not enough data provided. Need at least 10 timesteps." ↔
      frames.length < TIMESTEPS) ∧
    (frames.length = TIMESTEPS →
      predict_anomaly_windows frames = Except.ok [frames]) := by
  constructor
  · constructor
    · intro herr
      by_contra hlen
      have hne : frames.length - TIMESTEPS + 1 ≠ 0 := by omega
      rw [predict_anomaly_windows, if_neg hlen] at herr
      rw [if_neg (by simp only [makeSequences, List.length_map, List.length_range]; exact hne)]
        at herr
      exact absurd herr (by simp)
    · intro hlen
      rw [predict_anomaly_windows, if_pos hlen]
  · intro hlen
    have hnot : ¬ frames.length < TIMESTEPS := by omega
    have hseq : makeSequences frames = [frames] := by
      rw [makeSequences, hlen]
      rw [show List.range (TIMESTEPS - TIMESTEPS + 1) = [0] by decide]
      rw [List.map_singleton, List.drop_zero]
      rw [List.take_of_length_le (le_of_eq hlen)]
    rw [predict_anomaly_windows, if_neg hnot]
    simp [hseq]

/-- C8 witness: exactly TIMESTEPS frames produce exactly the one full
window, and nine frames produce the not-enough-data error. -/
theorem c8_insufficient_data_witness :
    (List.range TIMESTEPS).length = TIMESTEPS ∧
    predict_anomaly_windows (List.range TIMESTEPS) = Except.ok [List.range TIMESTEPS] ∧
    (List.range 9).length < TIMESTEPS ∧
    predict_anomaly_windows (List.range 9) =
      Except.error "Not enough data provided. Need at least 10 timesteps." :=
  ⟨by decide,
   (c8_insufficient_data (List.range TIMESTEPS)).2 (by decide),
   by decide,
   (c8_insufficient_data (List.range 9)).1.mpr (by decide)⟩

/-- Inserting into the accumulator is a permutation of consing. -/
lemma insertByErrorDesc_perm {α : Type} [LinearOrder α] (x : String × α) :
    ∀ l : List (String × α), List.Perm (insertByErrorDesc x l) (x :: l) := by
  intro l
  induction l with
  | nil => exact List.Perm.refl _
  | cons y ys ih =>
    by_cases h : x.2 ≤ y.2
    · rw [insertByErrorDesc, if_pos h]
      exact (ih.cons y).trans (List.Perm.swap x y ys)
    · rw [insertByErrorDesc, if_neg h]

/-- Inserting into a descending accumulator keeps it descending. -/
lemma insertByErrorDesc_pairwise {α : Type} [LinearOrder α] (x : String × α) :
    ∀ l : List (String × α), List.Pairwise (fun a b => b.2 ≤ a.2) l →
      List.Pairwise (fun a b => b.2 ≤ a.2) (insertByErrorDesc x l) := by
  intro l
  induction l with
  | nil => intro _; simp [insertByErrorDesc]
  | cons y ys ih =>
    intro hl
    rcases List.pairwise_cons.mp hl with ⟨hy, hys⟩
    by_cases h : x.2 ≤ y.2
    · rw [insertByErrorDesc, if_pos h]
      refine List.pairwise_cons.mpr ⟨?_, ih hys⟩
      intro z hz
      have hz2 : z ∈ x :: ys := (insertByErrorDesc_perm x ys).mem_iff.mp hz
      rcases List.mem_cons.mp hz2 with rfl | hzys
      · exact h
      · exact hy z hzys
    · rw [insertByErrorDesc, if_neg h]
      have hyx : y.2 ≤ x.2 := le_of_lt (lt_of_not_le h)
      refine List.pairwise_cons.mpr ⟨?_, hl⟩
      intro z hz
      rcases List.mem_cons.mp hz with rfl | hzys
      · exact hyx
      · exact le_trans (hy z hzys) hyx

/-- Elements with a different error value do not affect a filter by
error value when one is inserted. -/
lemma insertByErrorDesc_filter_ne {α : Type} [LinearOrder α] (x : String × α) (v : α)
    (hx : ¬ x.2 = v) :
    ∀ l : List (String × α),
      (insertByErrorDesc x l).filter (fun y => decide (y.2 = v)) =
        l.filter (fun y => decide (y.2 = v)) := by
  intro l
  induction l with
  | nil => simp [insertByErrorDesc, hx]
  | cons y ys ih =>
    by_cases h : x.2 ≤ y.2
    · rw [insertByErrorDesc, if_pos h]
      rw [List.filter_cons, List.filter_cons, ih]
    · rw [insertByErrorDesc, if_neg h]
      rw [List.filter_cons]
      simp [hx]

/-- Stability at one insertion: into a descending accumulator, an
element lands after every element sharing its error value. -/
lemma insertByErrorDesc_filter_eq {α : Type} [LinearOrder α] (x : String × α) (v : α)
    (hx : x.2 = v) :
    ∀ l : List (String × α), List.Pairwise (fun a b => b.2 ≤ a.2) l →
      (insertByErrorDesc x l).filter (fun y => decide (y.2 = v)) =
        l.filter (fun y => decide (y.2 = v)) ++ [x] := by
  intro l
  induction l with
  | nil => intro _; simp [insertByErrorDesc, hx]
  | cons y ys ih =>
    intro hl
    rcases List.pairwise_cons.mp hl with ⟨hy, hys⟩
    by_cases h : x.2 ≤ y.2
    · rw [insertByErrorDesc, if_pos h]
      rw [List.filter_cons, List.filter_cons, ih hys]
      by_cases hyv : y.2 = v <;> simp [hyv]
    · rw [insertByErrorDesc, if_neg h]
      have hvy : y.2 < v := hx ▸ lt_of_not_le h
      rw [List.filter_cons, if_pos (by simp [hx])]
      have hnil : (y :: ys).filter (fun z => decide (z.2 = v)) = [] := by
        rw [List.filter_eq_nil_iff]
        intro z hz
        rcases List.mem_cons.mp hz with rfl | hzys
        · simp only [decide_eq_true_eq]
          exact ne_of_lt hvy
        · simp only [decide_eq_true_eq]
          exact ne_of_lt (lt_of_le_of_lt (hy z hzys) hvy)
      rw [hnil]
      simp

/-- The invariants of the whole fold: the accumulator sort is
descending, a permutation of everything seen, and stable in the sense
that filtering by any single error value returns those elements in
input order. -/
lemma sortByErrorDesc_core {α : Type} [LinearOrder α] :
    ∀ (l acc : List (String × α)),
      List.Pairwise (fun a b => b.2 ≤ a.2) acc →
      List.Pairwise (fun a b => b.2 ≤ a.2)
        (l.foldl (fun a x => insertByErrorDesc x a) acc) ∧
      List.Perm (l.foldl (fun a x => insertByErrorDesc x a) acc) (l ++ acc) ∧
      ∀ v, (l.foldl (fun a x => insertByErrorDesc x a) acc).filter
            (fun y => decide (y.2 = v)) =
          acc.filter (fun y => decide (y.2 = v)) ++ l.filter (fun y => decide (y.2 = v)) := by
  intro l
  induction l with
  | nil =>
    intro acc hacc
    exact ⟨hacc, by simp, fun v => by simp⟩
  | cons x xs ih =>
    intro acc hacc
    rcases ih (insertByErrorDesc x acc) (insertByErrorDesc_pairwise x acc hacc) with
      ⟨hp, hperm, hfil⟩
    refine ⟨by rw [List.foldl_cons]; exact hp, ?_, ?_⟩
    · rw [List.foldl_cons, List.cons_append]
      exact hperm.trans
        ((List.Perm.append_left xs (insertByErrorDesc_perm x acc)).trans List.perm_middle)
    · intro v
      rw [List.foldl_cons, hfil v]
      by_cases hxv : x.2 = v
      · rw [insertByErrorDesc_filter_eq x v hxv acc hacc]
        rw [List.filter_cons, if_pos (by simp [hxv])]
        simp
      · rw [insertByErrorDesc_filter_ne x v hxv acc]
        rw [List.filter_cons, if_neg (by simp [hxv])]

/-- C9 counterexample: on a map where Speed and Brake share the top
error, the code ranks Speed first (stable sort keeps the dict
insertion order, which is the input column order), while the claimed
lexical tie-break would rank Brake first; the two top-3 lists differ. -/
theorem c9_tiebreak_counterexample :
    topFeatures sampleErrMap ≠ specTopChannels sampleErrMap ∧
    topFeatures sampleErrMap = [("Speed", 1), ("Brake", 1), ("RPM", 0)] ∧
    specTopChannels sampleErrMap = [("Brake", 1), ("Speed", 1), ("DRS", 0)] :=
  ⟨by decide, by decide, by decide⟩

/-- C9 amended: top_channels is the first 3 of a ranking that is a
permutation of the channel error map, ordered by error value
descending, with ties between equal error values keeping the order of
the input map (dict insertion order, the input schema column order)
rather than lexical name order; this is still deterministic for every
input. -/
theorem c9_ranking_amended {α : Type} [LinearOrder α] (m : List (String × α)) :
    topFeatures m = (sortByErrorDesc m).take 3 ∧
    List.Perm (sortByErrorDesc m) m ∧
    List.Pairwise (fun a b => b.2 ≤ a.2) (sortByErrorDesc m) ∧
    ∀ v : α, (sortByErrorDesc m).filter (fun y => decide (y.2 = v)) =
      m.filter (fun y => decide (y.2 = v)) := by
  rcases sortByErrorDesc_core m [] List.Pairwise.nil with ⟨hp, hperm, hfil⟩
  refine ⟨rfl, ?_, hp, ?_⟩
  · simpa using hperm
  · intro v
    simpa using hfil v

/-- C3: the classifier evaluates its rules in strict priority order
and returns exactly one event for every input.  On the scenario
top_channels = [RPM, Throttle, Speed] with snapshot Speed 150, RPM 0,
Throttle 0, Brake 0 it returns SensorDropout at Critical via rule 1,
even though the rule 3 guard (RPM and Throttle both among the top
channel names) also holds, and that outcome differs from TractionLoss;
the final conjunct is totality. -/
theorem c3_classifier_priority :
    classify_event [("RPM", (3 : ℤ)), ("Throttle", 2), ("Speed", 1)]
        { Speed := 150, RPM := 0, Throttle := 0, Brake := 0, nGear := 0, DRS := 0 } =
      (EventType.sensorDropout, EventSeverity.critical) ∧
    ("RPM" ∈ ([("RPM", (3 : ℤ)), ("Throttle", 2), ("Speed", 1)].map Prod.fst) ∧
      "Throttle" ∈ ([("RPM", (3 : ℤ)), ("Throttle", 2), ("Speed", 1)].map Prod.fst)) ∧
    (EventType.sensorDropout, EventSeverity.critical) ≠
      (EventType.tractionLoss, EventSeverity.physicalEvent) ∧
    (∀ (tc : List (String × ℤ)) (snap : RawSnapshot),
      ∃! p : EventType × EventSeverity, classify_event tc snap = p) := by
  refine ⟨by decide, by decide, by decide, ?_⟩
  intro tc snap
  exact ⟨classify_event tc snap, rfl, fun q hq => hq.symm⟩

/-- Joining a single interpretation with spaces is that interpretation. -/
lemma intercalate_single (s : String) : String.intercalate " " [s] = s := rfl

/-- C10: the interpretation stage is a total function.  The empty
top-features list yields the fixed no-feature-data string, and any
nonempty list none of whose channel names triggers a rule (none of
RPM, Throttle, Brake, DRS appears) still yields the nonempty fallback
interpretation built from the first, highest-error channel name. -/
theorem c10_interpretation_total :
    get_dynamic_interpretation (α := ℤ) [] = noFeatureDataText ∧
    ∀ (n : String) (e : ℤ) (rest : List (String × ℤ)),
      "RPM" ∉ ((n, e) :: rest).map Prod.fst →
      "Throttle" ∉ ((n, e) :: rest).map Prod.fst →
      "Brake" ∉ ((n, e) :: rest).map Prod.fst →
      "DRS" ∉ ((n, e) :: rest).map Prod.fst →
      get_dynamic_interpretation ((n, e) :: rest) =
        interpretationIntro ++ fallbackText n ++ recommendationText ∧
      get_dynamic_interpretation ((n, e) :: rest) ≠ "" := by
  refine ⟨rfl, ?_⟩
  intro n e rest h1 h2 h3 h4
  simp only [List.map_cons, List.mem_cons, not_or] at h1 h2 h3 h4
  obtain ⟨h1a, h1b⟩ := h1
  obtain ⟨h2a, h2b⟩ := h2
  obtain ⟨h3a, h3b⟩ := h3
  obtain ⟨h4a, h4b⟩ := h4
  have heq : get_dynamic_interpretation ((n, e) :: rest) =
      interpretationIntro ++ fallbackText n ++ recommendationText := by
    simp only [get_dynamic_interpretation]
    simp [h1a, h1b, h2a, h2b, h3a, h3b, h4a, h4b, intercalate_single]
  refine ⟨heq, ?_⟩
  rw [heq]
  intro hempty
  have hlen := congrArg String.length hempty
  rw [String.length_append, String.length_append] at hlen
  have hpos : 0 < interpretationIntro.length := by decide
  rw [show ("" : String).length = 0 from rfl] at hlen
  omega

/-- C10 witness: one non-rule channel gives the fallback text. -/
theorem c10_interpretation_total_witness :
    "RPM" ∉ ([("nGear", (1 : ℤ))].map Prod.fst) ∧
    (get_dynamic_interpretation [("nGear", (1 : ℤ))] =
      interpretationIntro ++ fallbackText "nGear" ++ recommendationText ∧
     get_dynamic_interpretation [("nGear", (1 : ℤ))] ≠ "") :=
  ⟨by decide,
   c10_interpretation_total.2 "nGear" 1 [] (by decide) (by decide) (by decide) (by decide)⟩

end ApexSentinel
